import Mathlib

/-!
Verification of the ManifoldMixupV2 repository (files `manifold_mixup.py` and
`interleaved_manifold_mixup.py`) against its natural-language specification.

Tensors are modelled as a shape (list of dimension sizes) together with
row-major flattened rational data.  Randomness (Beta draws, the shuffle
permutation, the module index) is passed in explicitly, so the per-batch
callbacks become pure functions.  Fallible tensor operations (broadcasting,
indexing, concatenation) return `Except String` mirroring the Python
runtime errors.
-/

namespace ManifoldMixupV2

/-- Decidable equality for `Except`, so that concrete runs of the fallible
operations can be checked by `decide`. -/
instance {ε α : Type} [DecidableEq ε] [DecidableEq α] : DecidableEq (Except ε α) := fun x y =>
  match x, y with
  | .ok a, .ok b =>
    if h : a = b then isTrue (by rw [h]) else isFalse (fun hc => by cases hc; exact h rfl)
  | .error a, .error b =>
    if h : a = b then isTrue (by rw [h]) else isFalse (fun hc => by cases hc; exact h rfl)
  | .ok _, .error _ => isFalse (fun hc => by cases hc)
  | .error _, .ok _ => isFalse (fun hc => by cases hc)

/-- A tensor: list of dimension sizes plus row-major flattened data. -/
structure Tensor where
  shape : List Nat
  data : List ℚ
deriving DecidableEq, Repr

/-- Number of dimensions, `t.dim()` in the source. -/
def Tensor.dim (t : Tensor) : Nat := t.shape.length

/-- A 0-dimensional tensor holding one value. -/
def scalarT (v : ℚ) : Tensor := ⟨[], [v]⟩

/-- All multi-indices of a shape, in row-major order. -/
def indicesOf : List Nat → List (List Nat)
  | [] => [[]]
  | d :: rest => (List.range d).flatMap (fun i => (indicesOf rest).map (i :: ·))

/-- Row-major flat index of a multi-index within a shape. -/
def flatIdx : List Nat → List Nat → Nat
  | _, [] => 0
  | [], _ => 0
  | _ :: ds, i :: is => i * ds.prod + flatIdx ds is

/-- Broadcast two dimension sizes (torch semantics): equal, or one is 1. -/
def broadcastDim (a b : Nat) : Option Nat :=
  if a = b then some a else if a = 1 then some b else if b = 1 then some a else none

/-- Broadcast two reversed shapes (trailing dimensions first). -/
def bshapeRev : List Nat → List Nat → Option (List Nat)
  | [], s => some s
  | s, [] => some s
  | a :: as, b :: bs =>
    match broadcastDim a b, bshapeRev as bs with
    | some d, some r => some (d :: r)
    | _, _ => none

/-- Broadcast two shapes, aligning trailing dimensions as torch does. -/
def bshape (s1 s2 : List Nat) : Option (List Nat) :=
  (bshapeRev s1.reverse s2.reverse).map List.reverse

/-- Read the element of `t` that broadcasting places at multi-index `idx`
of a result of rank `outRank`: the operand aligns with the trailing
dimensions, and its size-1 dimensions are clamped to position 0. -/
def bread (t : Tensor) (outRank : Nat) (idx : List Nat) : ℚ :=
  let idxAligned := idx.drop (outRank - t.shape.length)
  let clamped := (t.shape.zip idxAligned).map (fun p => if p.1 = 1 then 0 else p.2)
  t.data.getD (flatIdx t.shape clamped) 0

/-- Elementwise binary operation with torch broadcasting; errors on
non-broadcastable shapes as the torch runtime does. -/
def tmap2 (f : ℚ → ℚ → ℚ) (a b : Tensor) : Except String Tensor :=
  match bshape a.shape b.shape with
  | none => .error "RuntimeError: shapes are not broadcastable"
  | some s => .ok ⟨s, (indicesOf s).map (fun idx => f (bread a s.length idx) (bread b s.length idx))⟩

/-- Elementwise broadcast product, the `*` of the source. -/
def tmul (a b : Tensor) : Except String Tensor := tmap2 (· * ·) a b

/-- Elementwise broadcast sum, the `+` of the source. -/
def tadd (a b : Tensor) : Except String Tensor := tmap2 (· + ·) a b

/-- Elementwise broadcast difference, the `-` of the source. -/
def tsub (a b : Tensor) : Except String Tensor := tmap2 (· - ·) a b

/-- The expression `1 - t` of the source: scalar broadcast difference. -/
def oneMinus (t : Tensor) : Except String Tensor := tsub (scalarT 1) t

/-- Sum of all entries, `t.sum()`. -/
def tsum (t : Tensor) : ℚ := t.data.sum

/-- Mean of all entries, `t.mean()`. -/
def tmean (t : Tensor) : ℚ := t.data.sum / t.data.length

/-- Embeds `_adapt_dim` (manifold_mixup.py) and `adapt_dim`
(interleaved_manifold_mixup.py), which are verbatim identical: index the
tensor with `(...,)*t.dim() + (None,)*(t_target.dim()-t.dim())`.  For a
tensor of rank 0 or 1 this appends singleton trailing dimensions (the
`(None,)*k` part, with the Python negative repetition count collapsing to
zero exactly like truncated subtraction); for rank 2 or more the index
tuple holds several ellipses, which the tensor library rejects. -/
def adapt_dim (t t_target : Tensor) : Except String Tensor :=
  if 2 ≤ t.dim then
    .error "IndexError: an index can only have a single ellipsis"
  else
    .ok ⟨t.shape ++ List.replicate (t_target.dim - t.dim) 1, t.data⟩

/-- Indexing a tensor along dimension 0 with an index list, `t[shuffle]`.
Errors on a 0-dimensional tensor or an out-of-range index. -/
def tindexSel (t : Tensor) (idx : List Nat) : Except String Tensor :=
  match t.shape with
  | [] => .error "IndexError: too many indices for tensor of dimension 0"
  | b :: rest =>
    if idx.all (· < b) then
      .ok ⟨idx.length :: rest, idx.flatMap (fun i => ((t.data.drop (i * rest.prod)).take rest.prod))⟩
    else
      .error "IndexError: index out of range"

/-- Concatenation along dimension 0, `torch.cat((a, b), dim=0)`. -/
def tcat0 (a b : Tensor) : Except String Tensor :=
  match a.shape, b.shape with
  | ba :: rest, bb :: restb =>
    if rest = restb then .ok ⟨(ba + bb) :: rest, a.data ++ b.data⟩
    else .error "RuntimeError: sizes of tensors must match except in dimension 0"
  | _, _ => .error "RuntimeError: zero-dimensional tensor cannot be concatenated"

/-! ## Module selection -/

/-- Runtime types of the torch / fastai modules that appear in the
blocklist of `manifold_mixup.py`, the mixup wrapper marker type, and a few
ordinary mixable layer types. -/
inductive PyType where
  | Sequential | Dropout | Dropout2d | Dropout3d | AlphaDropout
  | BatchNorm1d | BatchNorm2d | BatchNorm3d | SyncBatchNorm
  | LSTM | LSTMCell | GRU | GRUCell | AWD_LSTM
  | RNN | RNNBase | RNNCell | RNNCellBase
  | MixupMarker | Linear | Conv2d | ReLU
deriving DecidableEq, Repr

/-- Python `isinstance` on the closed set of types above: reflexive, plus
the torch subclassing facts (RNN/LSTM/GRU subclass RNNBase, the cells
subclass RNNCellBase). -/
def instanceOf (t c : PyType) : Bool :=
  t = c ||
    match t, c with
    | .LSTM, .RNNBase | .GRU, .RNNBase | .RNN, .RNNBase => true
    | .LSTMCell, .RNNCellBase | .GRUCell, .RNNCellBase | .RNNCell, .RNNCellBase => true
    | _, _ => false

/-- A module of the externally supplied model, reduced to its runtime type. -/
structure PyModule where
  mtype : PyType
deriving DecidableEq, Repr

/-- The `non_mixable_module_types` list of `manifold_mixup.py`. -/
def non_mixable_module_types : List PyType :=
  [.Sequential, .Dropout, .Dropout2d, .Dropout3d, .AlphaDropout,
   .BatchNorm1d, .BatchNorm2d, .BatchNorm3d, .SyncBatchNorm,
   .LSTM, .LSTMCell, .GRU, .GRUCell, .AWD_LSTM,
   .RNN, .RNNBase, .RNNCell, .RNNCellBase]

/-- Embeds `_is_mixable` (manifold_mixup.py): not an instance of any
blocklisted class. -/
def is_mixable (m : PyModule) : Bool :=
  ! non_mixable_module_types.any (fun c => instanceOf m.mtype c)

/-- `isinstance(module, ManifoldMixupModule)`. -/
def isMixupMarker (m : PyModule) : Bool := instanceOf m.mtype .MixupMarker

/-- Embeds `_get_module_list` (manifold_mixup.py).  The flattened module
traversal `list(model.modules())` is the external model graph and is taken
as input. -/
def get_module_list (modules : List PyModule) (use_only_mixup_modules : Bool) :
    Except String (List PyModule) :=
  let module_list :=
    if use_only_mixup_modules then modules.filter isMixupMarker
    else modules.filter is_mixable
  if module_list.length = 0 then
    .error "No eligible layer found for mixup. Try passing use_only_mixup_modules=False or wrap one of your modules with a ManifoldMixupModule"
  else
    .ok module_list

/-- Embeds the module-selection part of
`interleaved_manifold_mixup.ManifoldMixupCallback.__init__` (lines 60-67):
when `mixup_all` is false only marker modules are kept, otherwise the
whole traversal is kept with no further filtering. -/
def interleavedModuleList (modules : List PyModule) (mixup_all : Bool) :
    Except String (List PyModule) :=
  let module_list :=
    if !mixup_all then modules.filter isMixupMarker
    else modules
  if module_list.length = 0 then
    .error "No eligible layer found for mixup. Try passing mixup_all=True or wrap one of your modules with a ManifoldMixupModule"
  else
    .ok module_list

/-! ## The tagging wrapper -/

/-- Embeds `ManifoldMixupModule` (both files): wraps an opaque module,
here an opaque function from a main input and the remaining (positional
and keyword) arguments to an output. -/
structure ManifoldMixupModule (α β γ : Type) where
  module : α → β → γ

/-- Embeds `ManifoldMixupModule.forward`: delegates to the wrapped module. -/
def ManifoldMixupModule.forward (m : ManifoldMixupModule α β γ) (x : α) (args : β) : γ :=
  m.module x args

/-! ## The loss adapter -/

/-- The adapter's own reduction setting. -/
inductive Reduction where
  | rmean | rsum | rnone
deriving DecidableEq, Repr

/-- Applies a reduction: `finalLoss.mean()`, `finalLoss.sum()`, or the
tensor unchanged. -/
def applyReduction (r : Reduction) (t : Tensor) : Tensor :=
  match r with
  | .rmean => scalarT (tmean t)
  | .rsum => scalarT (tsum t)
  | .rnone => t

/-- The blended loss of `ManifoldMixupLoss.forward`, transcribing the
lines `loss1 = ...; loss2 = ...; lam = _adapt_dim(lam, loss1);
finalLoss = loss1 * (1-lam) + loss2 * lam` applied to already-computed
per-sample losses: `loss1 * (1 - lam) + loss2 * lam` with the weight
vector broadcast to the rank of the per-sample loss tensor.  This is
also exactly the blend the specification names (the reduction is applied
on top of it). -/
def mixBlend (loss1 loss2 lam : Tensor) : Except String Tensor :=
  match adapt_dim lam loss1 with
  | .error e => .error e
  | .ok lamA =>
    match oneMinus lamA with
    | .error e => .error e
    | .ok om =>
      match tmul loss1 om with
      | .error e => .error e
      | .ok a =>
        match tmul loss2 lamA with
        | .error e => .error e
        | .ok b => tadd a b

/-- Embeds `ManifoldMixupLoss` (both files, verbatim identical).  The
constructor forces the wrapped criterion into per-sample (reduction none)
mode; `criterion` is that per-sample loss function, opaque to this
development. -/
structure ManifoldMixupLoss where
  criterion : Tensor → Tensor → Tensor
  reduction : Reduction

/-- Embeds `ManifoldMixupLoss.forward` (both files, verbatim identical):
with a 3-element target a weighted blend of two per-sample losses, else
the plain per-sample loss against the first target; the adapter's own
reduction is applied to the result in both cases. -/
def ManifoldMixupLoss.forward (L : ManifoldMixupLoss) (output : Tensor) (target : List Tensor) :
    Except String Tensor :=
  if target.length ≠ 3 then
    match target with
    | [] => .error "IndexError: tuple index out of range"
    | t0 :: _ => .ok (applyReduction L.reduction (L.criterion output t0))
  else
    match target with
    | [target1, target2, lam] =>
      let loss1 := L.criterion output target1
      let loss2 := L.criterion output target2
      match mixBlend loss1 loss2 lam with
      | .error e => .error e
      | .ok finalLoss => .ok (applyReduction L.reduction finalLoss)
    | _ => .error "unreachable: list of length 3 expected"

/-! ## The mixup callback

`on_batch_begin` is verbatim identical in `manifold_mixup.py` (lines
90-116) and `interleaved_manifold_mixup.py` (lines 73-99), so a single
embedding covers both.  The random draws of the source
(`np.random.beta`, `torch.randperm`, `np.random.randint`) are passed in
explicitly. -/

/-- The per-sample weight vector: `np.random.beta(alpha, alpha, B)`
followed by `np.concatenate([l[:,None], 1-l[:,None]], 1).max(1)`, i.e.
the elementwise maximum of each draw and its complement, as a rank-1
tensor. -/
def mkLam (draws : List ℚ) : Tensor :=
  ⟨[draws.length], draws.map (fun d => max d (1 - d))⟩

/-- `minimum_module_index` of `on_batch_begin`: -1 when input mixup is
permitted, else 0; `np.random.randint` then draws the module index `k`
from `[minimum_module_index, number of candidate modules)`. -/
def minimum_module_index (use_input_mixup : Bool) : Int :=
  if use_input_mixup then -1 else 0

/-- The input-mixing expression of `on_batch_begin`, transcribing the
source lines `input_lam = _adapt_dim(self.lam, last_input)` and
`last_input = (1 - input_lam) * last_input + input_lam *
last_input[shuffle]`: the weight vector is broadcast to the input's rank
and the mix is `(1 - lam) * input + lam * permuted-input`. -/
def codeInputMix (lam input : Tensor) (shuffle : List Nat) : Except String Tensor :=
  match adapt_dim lam input with
  | .error e => .error e
  | .ok lamA =>
    match oneMinus lamA with
    | .error e => .error e
    | .ok om =>
      match tmul om input with
      | .error e => .error e
      | .ok a =>
        match tindexSel input shuffle with
        | .error e => .error e
        | .ok permuted =>
          match tmul lamA permuted with
          | .error e => .error e
          | .ok b => tadd a b

/-- What `on_batch_begin` hands back to the driver and keeps on `self`:
the possibly-mixed input, the target triple `[last_target, last_target2,
output_lam]`, the stored `self.lam`, the stored shuffled companion input
`self.input` (module mixup only), the index of the module a forward hook
was registered on (module mixup only), and the `self.is_input_mixup`
flag. -/
structure BatchBeginResult where
  last_input : Tensor
  target1 : Tensor
  target2 : Tensor
  output_lam : Tensor
  lam : Tensor
  stored_input : Option Tensor
  hook_installed : Option Int
  is_input_mixup : Bool
deriving DecidableEq, Repr

/-- Embeds `ManifoldMixupCallback.on_batch_begin` (both files).  Returns
`none` on a non-training batch (the Python `return` of `None`, which
leaves input and target untouched and installs nothing). -/
def on_batch_begin (use_symmetric_batch : Bool) (last_input last_target : Tensor)
    (train : Bool) (draws : List ℚ) (shuffle : List Nat) (k : Int) :
    Except String (Option BatchBeginResult) :=
  if !train then .ok none
  else
    match tindexSel last_target shuffle with
    | .error e => .error e
    | .ok last_target2 =>
      if k = -1 then
        match codeInputMix (mkLam draws) last_input shuffle with
        | .error e => .error e
        | .ok mixed =>
          .ok (some ⟨mixed, last_target, last_target2, mkLam draws, mkLam draws, none, none, true⟩)
      else
        match tindexSel last_input shuffle with
        | .error e => .error e
        | .ok stored =>
          if use_symmetric_batch then
            match tcat0 last_target last_target2 with
            | .error e => .error e
            | .ok t1 =>
              match tcat0 last_target2 last_target with
              | .error e => .error e
              | .ok t2 =>
                match tcat0 (mkLam draws) (mkLam draws) with
                | .error e => .error e
                | .ok olam =>
                  .ok (some ⟨last_input, t1, t2, olam, mkLam draws, some stored, some k, false⟩)
          else
            .ok (some ⟨last_input, last_target, last_target2, mkLam draws, mkLam draws, some stored, some k, false⟩)

/-- The transient per-batch fields of the basic (two-slot) callback that
`hook_mixup` reads and writes, plus a counter of emitted diagnostic
warnings so that warning deduplication is observable. -/
structure MMState where
  lam : Tensor
  input : Tensor
  intermediate_output1 : Option Tensor
  intermediate_output2 : Option Tensor
  output : Option Tensor
  warning_raised : Bool
deriving DecidableEq, Repr

/-- The mixing expression of `hook_mixup`:
`output * (1 - lam) + stored * lam` with `lam` first broadcast to the
rank of the live activation. -/
def hookBlend (lam output stored : Tensor) : Except String Tensor :=
  match adapt_dim lam output with
  | .error e => .error e
  | .ok lamA =>
    match oneMinus lamA with
    | .error e => .error e
    | .ok om =>
      match tmul output om with
      | .error e => .error e
      | .ok a =>
        match tmul stored lamA with
        | .error e => .error e
        | .ok b => tadd a b

/-- Embeds `ManifoldMixupCallback.hook_mixup` of `manifold_mixup.py`
(the two-slot protocol).  `runModel` stands for the re-entrant
`self.learn.model(self.input)` call: it runs the whole external model,
whose forward pass may fire this very hook again and so may update the
callback state.  The result is the state after the call, the number of
diagnostic warnings emitted during the call, and either the tensor the
hook returns or the Python exception it raises.  On a firing with both
intermediate slots already filled the source reaches `return new_output`
without `new_output` ever being assigned, which raises
`UnboundLocalError` (after the warn-once diagnostic). -/
def hook_mixup (runModel : Tensor → MMState → Tensor × MMState) (st : MMState)
    (output : Tensor) : MMState × Nat × Except String Tensor :=
  match st.intermediate_output1 with
  | none =>
    let st1 := { st with intermediate_output1 := some output }
    let nested := runModel st1.input st1
    let st2 := { nested.2 with output := some nested.1 }
    match st2.intermediate_output2 with
    | none => (st2, 0, .error "TypeError: unsupported operand type: NoneType")
    | some io2 => (st2, 0, hookBlend st2.lam output io2)
  | some io1 =>
    match st.intermediate_output2 with
    | none =>
      let st1 := { st with intermediate_output2 := some output }
      (st1, 0, hookBlend st1.lam output io1)
    | some _ =>
      if !st.warning_raised then
        ({ st with warning_raised := true }, 1,
          .error "UnboundLocalError: local variable new_output referenced before assignment")
      else
        (st, 0, .error "UnboundLocalError: local variable new_output referenced before assignment")

/-- The fields of the basic (two-slot) callback that `on_loss_begin`
reads and writes.  `mixup_hook = some b` models a hook handle whose hook
is still registered iff `b` (torch `RemovableHandle.remove` is
idempotent); `none` models the initial `self.mixup_hook = None`. -/
structure LossState where
  mixup_hook : Option Bool
  intermediate_output1 : Option Tensor
  intermediate_output2 : Option Tensor
  output : Option Tensor
  is_input_mixup : Bool
  use_symmetric_batch : Bool
deriving DecidableEq, Repr

/-- Embeds `ManifoldMixupCallback.on_loss_begin` of `manifold_mixup.py`:
removes the hook, clears the two intermediate slots, and in symmetric
mode concatenates the cached second output onto the batch output.  When
the Python method returns `None` the driver keeps `last_output`, so the
returned tensor is `last_output` itself on those paths. -/
def on_loss_begin (st : LossState) (last_output : Tensor) (train : Bool) :
    Except String (LossState × Tensor) :=
  if !train || st.is_input_mixup then .ok (st, last_output)
  else
    match st.mixup_hook with
    | none => .error "AttributeError: NoneType object has no attribute remove"
    | some _ =>
      let st1 := { st with mixup_hook := some false,
                           intermediate_output1 := none, intermediate_output2 := none }
      if st.use_symmetric_batch then
        match st.output with
        | none => .error "TypeError: expected Tensor as element 1 in argument 0, but got NoneType"
        | some cached =>
          match tcat0 last_output cached with
          | .error e => .error e
          | .ok out => .ok (st1, out)
      else
        .ok (st1, last_output)

/-- The fields of the interleaved callback that its `on_loss_begin`
reads and writes. -/
structure ILossState where
  mixup_hook : Option Bool
  intermediate_output : Option Tensor
  output : Option Tensor
  is_input_mixup : Bool
  use_symmetric_batch : Bool
deriving DecidableEq, Repr

/-- Embeds `ManifoldMixupCallback.on_loss_begin` of
`interleaved_manifold_mixup.py`: identical to the basic variant except
that no intermediate slot is cleared. -/
def interleaved_on_loss_begin (st : ILossState) (last_output : Tensor) (train : Bool) :
    Except String (ILossState × Tensor) :=
  if !train || st.is_input_mixup then .ok (st, last_output)
  else
    match st.mixup_hook with
    | none => .error "AttributeError: NoneType object has no attribute remove"
    | some _ =>
      let st1 := { st with mixup_hook := some false }
      if st.use_symmetric_batch then
        match st.output with
        | none => .error "TypeError: expected Tensor as element 1 in argument 0, but got NoneType"
        | some cached =>
          match tcat0 last_output cached with
          | .error e => .error e
          | .ok out => .ok (st1, out)
      else
        .ok (st1, last_output)

/-! ## Formulas named by the specification -/

/-- The input-mixing formula exactly as the claim states it:
`lam * input + (1 - lam) * permuted-input`, with `lam` first broadcast to
the rank of the input. -/
def specClaimInputMix (lam input : Tensor) (shuffle : List Nat) : Except String Tensor :=
  match adapt_dim lam input with
  | .error e => .error e
  | .ok lamA =>
    match oneMinus lamA with
    | .error e => .error e
    | .ok om =>
      match tmul lamA input with
      | .error e => .error e
      | .ok a =>
        match tindexSel input shuffle with
        | .error e => .error e
        | .ok permuted =>
          match tmul om permuted with
          | .error e => .error e
          | .ok b => tadd a b

/-! ## Inversion lemmas for the fallible tensor operations -/

/-- A successful concatenation determines shape compatibility and the
result: leading dimensions add, data concatenates. -/
theorem tcat0_ok_inv (a b c : Tensor) (h : tcat0 a b = .ok c) :
    a.shape.tail = b.shape.tail ∧ a.shape ≠ [] ∧ b.shape ≠ [] ∧
    c = ⟨(a.shape.headD 0 + b.shape.headD 0) :: a.shape.tail, a.data ++ b.data⟩ := by
  unfold tcat0 at h
  split at h
  · split at h
    · next ba rest bb restb hsa hsb =>
      simp_all
    · simp_all
  · simp_all

/-- Concatenation of shape-compatible nonempty-rank tensors succeeds with
the expected shape and data. -/
theorem tcat0_eq_ok (a b : Tensor) (ha : a.shape.tail = b.shape.tail)
    (h1 : a.shape ≠ []) (h2 : b.shape ≠ []) :
    tcat0 a b = .ok ⟨(a.shape.headD 0 + b.shape.headD 0) :: a.shape.tail, a.data ++ b.data⟩ := by
  unfold tcat0
  cases hsa : a.shape with
  | nil => simp_all
  | cons ba rest =>
    cases hsb : b.shape with
    | nil => simp_all
    | cons bb restb =>
      have : rest = restb := by
        have := ha
        rw [hsa, hsb] at this
        simpa using this
      subst this
      simp

/-- Successful index selection produces a tensor whose leading dimension
is the number of indices and whose trailing shape is unchanged. -/
theorem tindexSel_ok_shape (t : Tensor) (idx : List Nat) (u : Tensor)
    (h : tindexSel t idx = .ok u) : u.shape = idx.length :: t.shape.tail := by
  unfold tindexSel at h
  split at h
  · simp_all
  · next b rest hs =>
    split at h
    · simp only [Except.ok.injEq] at h
      rw [← h, hs]
      simp
    · simp_all

/-- Every successful run of `on_batch_begin` stores `self.lam = mkLam draws`. -/
theorem on_batch_begin_lam_eq (sym : Bool) (input target : Tensor) (train : Bool)
    (draws : List ℚ) (shuffle : List Nat) (k : Int) (r : BatchBeginResult)
    (h : on_batch_begin sym input target train draws shuffle k = .ok (some r)) :
    r.lam = mkLam draws := by
  rw [on_batch_begin] at h
  iterate 9 (all_goals (try split at h))
  all_goals simp_all
  all_goals (subst h; rfl)

/-- Inversion of a successful symmetric module-mixup run of
`on_batch_begin`: both index selections and all three concatenations
succeeded, and the result record is exactly the one the symmetric branch
builds. -/
theorem on_batch_begin_sym_inv (input target : Tensor) (draws : List ℚ)
    (shuffle : List Nat) (k : Int) (r : BatchBeginResult)
    (hk : ¬ k = -1)
    (h : on_batch_begin true input target true draws shuffle k = .ok (some r)) :
    ∃ t2 stored t1c t2c olamc,
      tindexSel target shuffle = .ok t2 ∧ tindexSel input shuffle = .ok stored ∧
      tcat0 target t2 = .ok t1c ∧ tcat0 t2 target = .ok t2c ∧
      tcat0 (mkLam draws) (mkLam draws) = .ok olamc ∧
      r = ⟨input, t1c, t2c, olamc, mkLam draws, some stored, some k, false⟩ := by
  rw [on_batch_begin] at h
  iterate 9 (all_goals (try split at h))
  all_goals try (exact absurd (by assumption : (!true) = true) (by decide))
  all_goals try (exact absurd rfl (by assumption : ¬ true = true))
  all_goals try (exact Except.noConfusion h)
  all_goals
    exact ⟨_, _, _, _, _, by assumption, by assumption, by assumption, by assumption,
      by assumption, by simp only [Except.ok.injEq, Option.some.injEq] at h; exact h.symm⟩

/-! ## Claims -/

/-- C10: the tagging wrapper is observationally inert: for every wrapped
module and every input with any further arguments, the wrapper's
`forward` returns exactly what the wrapped module returns. -/
theorem C10_wrapper_inert : ∀ (α β γ : Type) (f : α → β → γ) (x : α) (args : β),
    ManifoldMixupModule.forward ⟨f⟩ x args = f x args :=
  fun _ _ _ _ _ _ => rfl

/-- C9: with exactly two positional targets the loss adapter takes the
non-mixup branch: the result is the reduced per-sample base loss against
the first target only, the second target being ignored. -/
theorem C9_two_targets_plain_loss : ∀ (L : ManifoldMixupLoss) (output t1 t2 : Tensor),
    L.forward output [t1, t2] = .ok (applyReduction L.reduction (L.criterion output t1)) := by
  intro L output t1 t2
  rfl

/-- C8: on a rank-1 weight tensor of length B and a target tensor of rank
R at least 1, the dimension broadcaster succeeds (never fails for such
targets) and returns the weight tensor reshaped to rank R by appending
R - 1 singleton trailing dimensions. -/
theorem C8_adapt_dim_shape (B : Nat) (data : List ℚ) (t_target : Tensor)
    (h : 1 ≤ t_target.dim) :
    adapt_dim ⟨[B], data⟩ t_target = .ok ⟨B :: List.replicate (t_target.dim - 1) 1, data⟩ ∧
    (B :: List.replicate (t_target.dim - 1) 1).length = t_target.dim := by
  constructor
  · unfold adapt_dim
    simp [Tensor.dim]
  · simp only [List.length_cons, List.length_replicate]
    omega

/-- C8 witness: the theorem applied to a length-2 weight vector and a
rank-2 target. -/
theorem C8_witness :
    adapt_dim ⟨[2], [1, 2]⟩ ⟨[2, 3], [0, 0, 0, 0, 0, 0]⟩ =
      .ok ⟨2 :: List.replicate ((⟨[2, 3], [0, 0, 0, 0, 0, 0]⟩ : Tensor).dim - 1) 1, [1, 2]⟩ ∧
    (2 :: List.replicate ((⟨[2, 3], [0, 0, 0, 0, 0, 0]⟩ : Tensor).dim - 1) 1).length =
      (⟨[2, 3], [0, 0, 0, 0, 0, 0]⟩ : Tensor).dim :=
  C8_adapt_dim_shape 2 [1, 2] ⟨[2, 3], [0, 0, 0, 0, 0, 0]⟩ (by decide)

/-- C2 counterexample: in the interleaved variant with `mixup_all = true`
(selection not restricted to tagged wrapper modules) the constructed
candidate set keeps a dropout module even though dropout is in the
blocklist, so the candidate set is not "exactly the modules whose runtime
type is not in the blocklist" in both variants. -/
theorem C2_counterexample :
    interleavedModuleList [⟨.Dropout⟩] true = .ok [⟨.Dropout⟩] ∧
    is_mixable ⟨.Dropout⟩ = false := by
  decide

/-- C2 amended: only the basic variant applies the blocklist filter: its
candidate set is exactly the traversed modules that are not an instance
of a blocklisted type; the interleaved variant with `mixup_all = true`
keeps the whole traversal unfiltered. -/
theorem C2_amended :
    (∀ (mods : List PyModule) (l : List PyModule),
      get_module_list mods false = .ok l → l = mods.filter is_mixable) ∧
    (∀ (mods : List PyModule) (l : List PyModule),
      interleavedModuleList mods true = .ok l → l = mods) := by
  constructor
  · intro mods l h
    rw [get_module_list] at h
    by_cases hz : (mods.filter is_mixable).length = 0
    · simp [hz] at h
    · simp [hz] at h
      exact h.symm
  · intro mods l h
    rw [interleavedModuleList] at h
    by_cases hz : mods.length = 0
    · simp [hz] at h
    · simp [hz] at h
      exact h.symm

/-- C2 witness: the amended statement applied to concrete module lists. -/
theorem C2_witness :
    ([⟨.Linear⟩] : List PyModule) = ([⟨.Dropout⟩, ⟨.Linear⟩] : List PyModule).filter is_mixable ∧
    ([⟨.Dropout⟩, ⟨.Linear⟩] : List PyModule) = [⟨.Dropout⟩, ⟨.Linear⟩] :=
  ⟨C2_amended.1 [⟨.Dropout⟩, ⟨.Linear⟩] [⟨.Linear⟩] (by decide),
   C2_amended.2 [⟨.Dropout⟩, ⟨.Linear⟩] [⟨.Dropout⟩, ⟨.Linear⟩] (by decide)⟩

/-- C1: a third firing of the two-slot hook in one batch (both
intermediate slots already filled) emits the warn-once diagnostic exactly
once per run (one warning the first time, zero when the flag is already
set) but then raises UnboundLocalError from `return new_output` instead
of passing the activation through unchanged. -/
theorem C1_third_firing_raises :
    hook_mixup (fun t s => (t, s))
        ⟨⟨[1], [1]⟩, ⟨[1], [2]⟩, some ⟨[1], [3]⟩, some ⟨[1], [4]⟩, none, false⟩ ⟨[1], [9]⟩ =
      (⟨⟨[1], [1]⟩, ⟨[1], [2]⟩, some ⟨[1], [3]⟩, some ⟨[1], [4]⟩, none, true⟩, 1,
        .error "UnboundLocalError: local variable new_output referenced before assignment") ∧
    hook_mixup (fun t s => (t, s))
        ⟨⟨[1], [1]⟩, ⟨[1], [2]⟩, some ⟨[1], [3]⟩, some ⟨[1], [4]⟩, none, true⟩ ⟨[1], [9]⟩ =
      (⟨⟨[1], [1]⟩, ⟨[1], [2]⟩, some ⟨[1], [3]⟩, some ⟨[1], [4]⟩, none, true⟩, 0,
        .error "UnboundLocalError: local variable new_output referenced before assignment") := by
  decide

unseal Rat.add Rat.mul Rat.sub Rat.inv in
/-- C3 counterexample: with draws 3/10 (so lam = 7/10), input (1, 0) and
the swap permutation, the code replaces the input with (3/10, 7/10) while
the formula of the claim, lam times input plus (1 - lam) times permuted
input, gives (7/10, 3/10); the two differ. -/
theorem C3_counterexample :
    (on_batch_begin true ⟨[2], [1, 0]⟩ ⟨[2], [10, 20]⟩ true [3/10, 3/10] [1, 0] (-1)).map
        (Option.map BatchBeginResult.last_input) = .ok (some ⟨[2], [3/10, 7/10]⟩) ∧
    specClaimInputMix (mkLam [3/10, 3/10]) ⟨[2], [1, 0]⟩ [1, 0] = .ok ⟨[2], [7/10, 3/10]⟩ ∧
    (⟨[2], [3/10, 7/10]⟩ : Tensor) ≠ ⟨[2], [7/10, 3/10]⟩ := by
  decide

/-- C3 amended: on every input-mixup batch (module index k = -1) the
batch input is replaced by (1 - lam) times the input plus lam times the
permuted input, with lam first broadcast to the input's rank, and no
interceptor is installed. -/
theorem C3_input_mixup (sym : Bool) (input target : Tensor) (draws : List ℚ)
    (shuffle : List Nat) (r : BatchBeginResult)
    (h : on_batch_begin sym input target true draws shuffle (-1) = .ok (some r)) :
    codeInputMix (mkLam draws) input shuffle = .ok r.last_input ∧
    r.hook_installed = none ∧ r.is_input_mixup = true ∧ r.stored_input = none := by
  rw [on_batch_begin] at h
  split at h
  · simp at h
  · split at h
    · simp at h
    · split at h
      · split at h
        · simp at h
        · simp only [Except.ok.injEq, Option.some.injEq] at h
          subst h
          exact ⟨by assumption, rfl, rfl, rfl⟩
      · simp_all

unseal Rat.add Rat.mul Rat.sub Rat.inv in
/-- C3 witness: the amended statement applied at a concrete batch. -/
theorem C3_witness :
    codeInputMix (mkLam [3/10, 2/5]) ⟨[2], [1, 0]⟩ [1, 0] = .ok ⟨[2], [3/10, 3/5]⟩ ∧
    (none : Option Int) = none ∧ true = true ∧ (none : Option Tensor) = none :=
  C3_input_mixup true ⟨[2], [1, 0]⟩ ⟨[2], [10, 20]⟩ [3/10, 2/5] [1, 0]
    ⟨⟨[2], [3/10, 3/5]⟩, ⟨[2], [10, 20]⟩, ⟨[2], [20, 10]⟩, ⟨[2], [7/10, 3/5]⟩,
      ⟨[2], [7/10, 3/5]⟩, none, none, true⟩
    (by decide)

/-- C4 counterexample: with symmetric mode on, a second consecutive
`on_loss_begin` call for the same batch concatenates the cached second
output again — the first call turns output (5) into (5, 7), the second
turns (5, 7) into (5, 7, 7), which differs from (5, 7). -/
theorem C4_counterexample :
    on_loss_begin ⟨some true, none, none, some ⟨[1], [7]⟩, false, true⟩ ⟨[1], [5]⟩ true =
      .ok (⟨some false, none, none, some ⟨[1], [7]⟩, false, true⟩, ⟨[2], [5, 7]⟩) ∧
    on_loss_begin ⟨some false, none, none, some ⟨[1], [7]⟩, false, true⟩ ⟨[2], [5, 7]⟩ true =
      .ok (⟨some false, none, none, some ⟨[1], [7]⟩, false, true⟩, ⟨[3], [5, 7, 7]⟩) ∧
    (⟨[3], [5, 7, 7]⟩ : Tensor) ≠ ⟨[2], [5, 7]⟩ := by
  decide

/-- C4 amended: calling the after-loss hook twice in a row for the same
module-mixup batch never raises (hook removal is idempotent), and the
second call returns the output unchanged when symmetric mode is off, but
with symmetric mode on it concatenates the cached second output onto the
batch output once more. -/
theorem C4_on_loss_begin_twice (st : LossState) (out cached : Tensor)
    (st1 : LossState) (o1 : Tensor)
    (hmix : st.is_input_mixup = false)
    (hhook : st.mixup_hook = some true)
    (hout : st.output = some cached)
    (h1 : on_loss_begin st out true = .ok (st1, o1)) :
    (st.use_symmetric_batch = false → on_loss_begin st1 o1 true = .ok (st1, o1)) ∧
    (st.use_symmetric_batch = true →
      on_loss_begin st1 o1 true =
        .ok (st1, ⟨(o1.shape.headD 0 + cached.shape.headD 0) :: o1.shape.tail,
                   o1.data ++ cached.data⟩)) := by
  obtain ⟨mh, i1, i2, outp, imix, symb⟩ := st
  simp only at hmix hhook hout
  subst hmix hhook hout
  rw [on_loss_begin] at h1
  dsimp only at h1
  split at h1
  · next hc => exact absurd hc (by decide)
  · constructor
    · intro hsym
      simp only at hsym
      subst hsym
      split at h1
      · next hc => exact absurd hc (by decide)
      · simp only [Except.ok.injEq, Prod.mk.injEq] at h1
        obtain ⟨hst1, ho1⟩ := h1
        subst hst1
        subst ho1
        simp [on_loss_begin]
    · intro hsym
      simp only at hsym
      subst hsym
      split at h1
      · split at h1
        · simp at h1
        · next o1c hcat =>
          simp only [Except.ok.injEq, Prod.mk.injEq] at h1
          obtain ⟨hst1, ho1⟩ := h1
          subst hst1
          subst ho1
          obtain ⟨htail, hne1, hne2, hco⟩ := tcat0_ok_inv out cached o1c hcat
          have hcat2 := tcat0_eq_ok o1c cached
            (by rw [hco]; simpa using htail) (by rw [hco]; simp) hne2
          simp [on_loss_begin, hcat2]
      · next hc => exact absurd rfl hc

/-- C4 witness: the amended statement applied at a concrete symmetric
batch, showing the second call re-concatenates the cached output. -/
theorem C4_witness :
    on_loss_begin ⟨some false, none, none, some ⟨[1], [7]⟩, false, true⟩ ⟨[2], [5, 7]⟩ true =
      .ok (⟨some false, none, none, some ⟨[1], [7]⟩, false, true⟩, ⟨[3], [5, 7, 7]⟩) :=
  (C4_on_loss_begin_twice ⟨some true, none, none, some ⟨[1], [7]⟩, false, true⟩
    ⟨[1], [5]⟩ ⟨[1], [7]⟩ ⟨some false, none, none, some ⟨[1], [7]⟩, false, true⟩
    ⟨[2], [5, 7]⟩ rfl rfl rfl (by decide)).2 rfl

/-- C5: for a symmetric module-mixup batch of size B, the returned
target triple has first component target ++ permuted-target and second
component permuted-target ++ target (second half in swapped order), both
of leading dimension 2B, its weight vector is lam concatenated with
itself with shape 2B, and the after-loss hook returns the external output
concatenated with the cached second output along the batch dimension,
with leading dimension exactly 2B. -/
theorem C5_symmetric_doubling (input target t2 : Tensor) (draws : List ℚ)
    (shuffle : List Nat) (k : Int) (r : BatchBeginResult) (B : Nat) (rest : List Nat)
    (hk : ¬ k = -1)
    (htgt : target.shape = B :: rest)
    (hdr : draws.length = B)
    (hsh : shuffle.length = B)
    (ht2 : tindexSel target shuffle = .ok t2)
    (h : on_batch_begin true input target true draws shuffle k = .ok (some r)) :
    (r.target1 = ⟨(B + B) :: rest, target.data ++ t2.data⟩ ∧
     r.target2 = ⟨(B + B) :: rest, t2.data ++ target.data⟩ ∧
     r.output_lam = ⟨[B + B], (mkLam draws).data ++ (mkLam draws).data⟩ ∧
     r.target1.shape.headD 0 = 2 * B ∧
     r.target2.shape.headD 0 = 2 * B ∧
     r.output_lam.shape = [2 * B]) ∧
    (∀ (st : LossState) (out cached : Tensor) (restO : List Nat),
      st.is_input_mixup = false → st.mixup_hook = some true →
      st.output = some cached → st.use_symmetric_batch = true →
      out.shape = B :: restO → cached.shape = B :: restO →
      (on_loss_begin st out true).map (fun p => p.2.shape) = .ok ((2 * B) :: restO)) := by
  have ht2s : t2.shape = B :: rest := by
    have := tindexSel_ok_shape target shuffle t2 ht2
    rw [hsh, htgt] at this
    simpa using this
  constructor
  · obtain ⟨t2', stored, t1c, t2c, olamc, heq2, hstored, hcat1, hcat2, hcat3, hr⟩ :=
      on_batch_begin_sym_inv input target draws shuffle k r hk h
    rw [ht2] at heq2
    injection heq2 with heq2
    subst heq2
    subst hr
    obtain ⟨-, -, -, hco1⟩ := tcat0_ok_inv target t2 t1c hcat1
    obtain ⟨-, -, -, hco2⟩ := tcat0_ok_inv t2 target t2c hcat2
    obtain ⟨-, -, -, hco3⟩ := tcat0_ok_inv (mkLam draws) (mkLam draws) olamc hcat3
    rw [htgt, ht2s] at hco1 hco2
    simp only [List.headD_cons, List.tail_cons] at hco1 hco2
    refine ⟨?_, ?_, ?_, ?_, ?_, ?_⟩
    · simpa using hco1
    · simpa using hco2
    · simp only [mkLam] at hco3 ⊢
      simpa [hdr] using hco3
    · simp [hco1, two_mul]
    · simp [hco2, two_mul]
    · simp only [mkLam] at hco3
      simp [hco3, hdr, two_mul]
  · intro st out cached restO hmix hhook hout hsym hosh hcsh
    obtain ⟨mh, i1, i2, outp, imix, symb⟩ := st
    simp only at hmix hhook hout hsym
    subst hmix hhook hout hsym
    have hcat := tcat0_eq_ok out cached (by rw [hosh, hcsh]) (by simp [hosh]) (by simp [hcsh])
    simp [on_loss_begin, hcat, hosh, hcsh, two_mul, Except.map]

unseal Rat.add Rat.mul Rat.sub Rat.inv in
/-- C5 witness: the doubling statement applied at a concrete symmetric
batch of size 2. -/
theorem C5_witness :
    ((⟨⟨[2], [1, 0]⟩, ⟨[4], [10, 20, 20, 10]⟩, ⟨[4], [20, 10, 10, 20]⟩,
        ⟨[4], [7/10, 3/5, 7/10, 3/5]⟩, ⟨[2], [7/10, 3/5]⟩, some ⟨[2], [0, 1]⟩,
        some 0, false⟩ : BatchBeginResult).output_lam.shape = [2 * 2]) ∧
    (on_loss_begin ⟨some true, none, none, some ⟨[2], [8, 9]⟩, false, true⟩
        ⟨[2], [5, 6]⟩ true).map (fun p => p.2.shape) = .ok ((2 * 2) :: []) :=
  ⟨(C5_symmetric_doubling ⟨[2], [1, 0]⟩ ⟨[2], [10, 20]⟩ ⟨[2], [20, 10]⟩ [3/10, 2/5] [1, 0] 0
      ⟨⟨[2], [1, 0]⟩, ⟨[4], [10, 20, 20, 10]⟩, ⟨[4], [20, 10, 10, 20]⟩,
        ⟨[4], [7/10, 3/5, 7/10, 3/5]⟩, ⟨[2], [7/10, 3/5]⟩, some ⟨[2], [0, 1]⟩,
        some 0, false⟩ 2 []
      (by decide) (by decide) (by decide) (by decide) (by decide) (by decide)).1.2.2.2.2.2,
   (C5_symmetric_doubling ⟨[2], [1, 0]⟩ ⟨[2], [10, 20]⟩ ⟨[2], [20, 10]⟩ [3/10, 2/5] [1, 0] 0
      ⟨⟨[2], [1, 0]⟩, ⟨[4], [10, 20, 20, 10]⟩, ⟨[4], [20, 10, 10, 20]⟩,
        ⟨[4], [7/10, 3/5, 7/10, 3/5]⟩, ⟨[2], [7/10, 3/5]⟩, some ⟨[2], [0, 1]⟩,
        some 0, false⟩ 2 []
      (by decide) (by decide) (by decide) (by decide) (by decide) (by decide)).2
     ⟨some true, none, none, some ⟨[2], [8, 9]⟩, false, true⟩ ⟨[2], [5, 6]⟩ ⟨[2], [8, 9]⟩ []
     rfl rfl rfl rfl rfl rfl⟩

/-- C6: the loss adapter applied to a 3-element target triple returns
the reduction (its own mean/sum/none setting) of
loss1 * (1 - lam) + loss2 * lam with lam broadcast to the per-sample
loss rank, and applied to exactly one target it returns the reduced plain
per-sample loss. -/
theorem C6_loss_adapter_forward :
    (∀ (L : ManifoldMixupLoss) (output t1 t2 lam : Tensor),
      L.forward output [t1, t2, lam] =
        (mixBlend (L.criterion output t1) (L.criterion output t2) lam).map
          (applyReduction L.reduction)) ∧
    (∀ (L : ManifoldMixupLoss) (output t : Tensor),
      L.forward output [t] = .ok (applyReduction L.reduction (L.criterion output t))) := by
  constructor
  · intro L output t1 t2 lam
    rw [ManifoldMixupLoss.forward]
    cases h : mixBlend (L.criterion output t1) (L.criterion output t2) lam <;>
      simp [h, Except.map]
  · intro L output t
    rfl

/-- C7: on every successful training-batch run the stored weight vector
lam has length B (the leading dimension of the target), each element is
the maximum of the corresponding Beta draw and its complement, and hence
every element lies in the closed interval from 1/2 to 1. -/
theorem C7_lam_length_and_bounds (sym : Bool) (input target : Tensor) (draws : List ℚ)
    (shuffle : List Nat) (k : Int) (r : BatchBeginResult)
    (hB : draws.length = target.shape.headD 0)
    (hd : ∀ d ∈ draws, 0 ≤ d ∧ d ≤ 1)
    (h : on_batch_begin sym input target true draws shuffle k = .ok (some r)) :
    r.lam.shape = [target.shape.headD 0] ∧
    r.lam.data = draws.map (fun d => max d (1 - d)) ∧
    ∀ v ∈ r.lam.data, 1/2 ≤ v ∧ v ≤ 1 := by
  have hl : r.lam = mkLam draws :=
    on_batch_begin_lam_eq sym input target true draws shuffle k r h
  refine ⟨?_, ?_, ?_⟩
  · rw [hl]
    simp [mkLam, hB]
  · rw [hl]
    rfl
  · intro v hv
    rw [hl] at hv
    simp only [mkLam] at hv
    rw [List.mem_map] at hv
    obtain ⟨d, hdm, rfl⟩ := hv
    obtain ⟨h0, h1⟩ := hd d hdm
    constructor
    · rcases le_total d (1/2) with hc | hc
      · exact le_trans (by linarith) (le_max_right d (1 - d))
      · exact le_trans hc (le_max_left d (1 - d))
    · exact max_le h1 (by linarith)

unseal Rat.add Rat.mul Rat.sub Rat.inv in
/-- C7 witness: the bounds applied to a concrete element of a concrete
batch run. -/
theorem C7_witness : (1 : ℚ)/2 ≤ 7/10 ∧ (7 : ℚ)/10 ≤ 1 :=
  (C7_lam_length_and_bounds true ⟨[2], [1, 0]⟩ ⟨[2], [10, 20]⟩ [3/10, 2/5] [1, 0] 0
      ⟨⟨[2], [1, 0]⟩, ⟨[4], [10, 20, 20, 10]⟩, ⟨[4], [20, 10, 10, 20]⟩,
        ⟨[4], [7/10, 3/5, 7/10, 3/5]⟩, ⟨[2], [7/10, 3/5]⟩, some ⟨[2], [0, 1]⟩,
        some 0, false⟩
      (by decide) (by decide) (by decide)).2.2 (7/10) (by decide)

end ManifoldMixupV2
